import Mathlib

/-!
Verification of the vocal-removal serverless handler (`src/handler.py`).

The Python module is shallowly embedded: paths are lists of components,
the local filesystem is an explicit record of files (with byte contents)
and directories, and the effects the handler performs (base64 decode,
file writes, the external `demucs` subprocess, glob searches, cleanup)
are modelled as pure state-passing functions.  Nondeterministic inputs of
one invocation (timestamps, the device string, the behaviour of the
external tool) are collected in an `Env` record.  Bytes are natural
numbers below 256.
-/

set_option maxRecDepth 4096

/-- A filesystem path, as its list of components below the root
(so `/tmp/vocal_removal` is `["tmp", "vocal_removal"]`). -/
abbrev FPath := List String

/-- Render a path the way `os.path.join` produces it in the source,
as an absolute slash-separated string. -/
def pathStr (p : FPath) : String :=
  "/" ++ String.intercalate "/" p

/- ## Base64 (model of CPython `base64.b64encode` / `b64decode`) -/

/-- The standard base64 alphabet, in value order. -/
def b64Chars : List Char :=
  "ABCDEFGHIJKLMNOPQRSTUVWXYZabcdefghijklmnopqrstuvwxyz0123456789+/".data

/-- The alphabet character for a 6-bit value. -/
def b64CharOf (v : Nat) : Char := b64Chars.getD v 'A'

/-- The 6-bit value of an alphabet character, if any. -/
def b64ValOf (c : Char) : Option Nat := b64Chars.indexOf? c

/-- Characters `b64decode` (with `validate=False`, the source's call) keeps;
all others are discarded before decoding, as CPython does. -/
def b64Keep (c : Char) : Bool := (b64ValOf c).isSome || c = '='

/-- Model of `base64.b64encode` on a byte list: three bytes become four
alphabet characters, a final one- or two-byte group is padded with `=`. -/
def b64encodeBytes : List Nat → List Char
  | [] => []
  | [a] => [b64CharOf (a / 4), b64CharOf (a % 4 * 16), '=', '=']
  | [a, b] => [b64CharOf (a / 4), b64CharOf (a % 4 * 16 + b / 16),
      b64CharOf (b % 16 * 4), '=']
  | a :: b :: c :: rest =>
      b64CharOf (a / 4) :: b64CharOf (a % 4 * 16 + b / 16) ::
      b64CharOf (b % 16 * 4 + c / 64) :: b64CharOf (c % 64) ::
      b64encodeBytes rest

/-- First reconstructed byte of a four-character group. -/
def b64Byte1 (v1 v2 : Nat) : Nat := v1 * 4 + v2 / 16

/-- Second reconstructed byte of a four-character group. -/
def b64Byte2 (v2 v3 : Nat) : Nat := v2 % 16 * 16 + v3 / 4

/-- Third reconstructed byte of a four-character group. -/
def b64Byte3 (v3 v4 : Nat) : Nat := v3 % 4 * 64 + v4

/-- The message carried by the `binascii.Error` that `b64decode` raises on
malformed input (the source re-raises it unchanged). -/
def invalidPaddingMsg : String := "Invalid base64-encoded string: invalid padding"

/-- Model of `base64.b64decode` after discarding non-alphabet characters:
groups of four data characters, with `=` padding allowed only to close the
final group; anything else raises. -/
def b64decodeCore : List Char → Except String (List Nat)
  | [] => Except.ok []
  | c1 :: c2 :: c3 :: c4 :: rest =>
      match b64ValOf c1, b64ValOf c2 with
      | some v1, some v2 =>
          if c3 = '=' then
            if c4 = '=' then
              if rest.isEmpty then Except.ok [b64Byte1 v1 v2]
              else Except.error invalidPaddingMsg
            else Except.error invalidPaddingMsg
          else
            match b64ValOf c3 with
            | some v3 =>
                if c4 = '=' then
                  if rest.isEmpty then Except.ok [b64Byte1 v1 v2, b64Byte2 v2 v3]
                  else Except.error invalidPaddingMsg
                else
                  match b64ValOf c4 with
                  | some v4 =>
                      match b64decodeCore rest with
                      | Except.ok bs =>
                          Except.ok (b64Byte1 v1 v2 :: b64Byte2 v2 v3 ::
                            b64Byte3 v3 v4 :: bs)
                      | Except.error e => Except.error e
                  | none => Except.error invalidPaddingMsg
            | none => Except.error invalidPaddingMsg
      | _, _ => Except.error invalidPaddingMsg
  | _ => Except.error invalidPaddingMsg

/-- `base64.b64decode` on a string payload. -/
def b64decodeStr (s : String) : Except String (List Nat) :=
  b64decodeCore (s.data.filter b64Keep)

/-- `base64.b64encode(...).decode("utf-8")` on byte contents. -/
def b64encodeStr (bs : List Nat) : String := String.mk (b64encodeBytes bs)


/- ## Paths and filenames -/

/-- `l` begins with the segment `pat` (used for glob `pattern*` filename
matching and for `shutil.rmtree` subtree tests). -/
def startsWithSeg {α : Type} [DecidableEq α] (pat l : List α) : Bool :=
  decide (l.take pat.length = pat)

/-- The characters before the last `.` of a component, when a `.` occurs. -/
def lastDotleft : List Char → Option (List Char)
  | [] => none
  | c :: rest =>
      match lastDotleft rest with
      | some p => some (c :: p)
      | none => if c = '.' then some [] else none

/-- `os.path.splitext(s)[0]`: everything before the last dot, except that a
name whose only dots are leading keeps its extension unsplit. -/
def splitextStem (s : String) : String :=
  match lastDotleft s.data with
  | some p => if p.any (fun c => decide (c ≠ '.')) then String.mk p else s
  | none => s

/-- `needle` occurs contiguously inside `hay`. -/
def hasSub (needle : List Char) : List Char → Bool
  | [] => needle.isEmpty
  | c :: rest => startsWithSeg needle (c :: rest) || hasSub needle rest

/- ## The data model -/

/-- One recorded invocation of the external separation tool
(`subprocess.run(command, ..., timeout=300)`, handler.py line 124). -/
structure Invocation where
  args : List String
  timeoutSeconds : Nat
deriving DecidableEq

/-- Observable processing steps of one job, recorded as a trace: the
base64-decode-and-write of the payload, each subprocess run of the tool, and
each `glob.glob` search for the output artifact. -/
inductive Event
  | decodeFile
  | runTool (inv : Invocation)
  | globSearchPrimary
  | globSearchFallback
deriving DecidableEq

/-- The three dictionary shapes `handler` can return: the bare
`{"error": ...}` of the missing-payload path (line 199), the success
dictionary (lines 216-225) and the failure dictionary (lines 246-252).
The constant fields `success: True/False` and `serverless: True` are
carried by the constructor; `Response.fields` lists the keys. -/
inductive Response
  | errorOnly (error : String)
  | success (processed_audio : String) (processing_time : Nat) (method : String)
      (gpu_used : String) (output_filename : String) (timestamp : String)
  | failure (error : String) (processing_time : Nat) (timestamp : String)
deriving DecidableEq

/-- Keys of the success dictionary (handler.py lines 216-225), in order. -/
def successKeys : List String :=
  ["success", "processed_audio", "processing_time", "method", "gpu_used",
   "output_filename", "timestamp", "serverless"]

/-- Keys of the failure dictionary (handler.py lines 246-252), in order. -/
def failureKeys : List String :=
  ["success", "error", "processing_time", "timestamp", "serverless"]

/-- The keys of the returned dictionary. -/
def Response.fields : Response → List String
  | Response.errorOnly _ => ["error"]
  | Response.success _ _ _ _ _ _ => successKeys
  | Response.failure _ _ _ => failureKeys

/-- The value under the `success` key, when the dictionary has one. -/
def Response.successFlag : Response → Option Bool
  | Response.errorOnly _ => none
  | Response.success _ _ _ _ _ _ => some true
  | Response.failure _ _ _ => some false

/-- The value under the `error` key, when the dictionary has one. -/
def Response.errorText : Response → Option String
  | Response.errorOnly e => some e
  | Response.success _ _ _ _ _ _ => none
  | Response.failure e _ _ => some e

/-- The `input` mapping of a job; a missing key reads as `none`
(`dict.get` with no default). -/
structure JobInput where
  audio_data : Option String := none
  filename : Option String := none
  method : Option String := none
deriving DecidableEq

/-- A job object as delivered by the intake runtime. -/
structure Job where
  input : Option JobInput := none
deriving DecidableEq

/-- Behaviour of the external tool on this run: either the 300-second
timeout fires, or the process exits with a return code, captured output
text, and the files it wrote below the output directory (as paths relative
to it, with their byte contents). -/
inductive ToolResult
  | timeout
  | exited (returncode : Int) (stdoutText : String) (stderrText : String)
      (creates : List (FPath × List Nat))
deriving DecidableEq

/-- Per-invocation ambient data: the two `datetime.now().strftime` stamps
(decode time and output-directory creation time), the processor's device
string, the external tool's behaviour, the measured elapsed seconds, and
the `isoformat` timestamp. -/
structure Env where
  stampDecode : String
  stampOutput : String
  device : String
  tool : ToolResult
  elapsed : Nat
  isoNow : String
deriving DecidableEq

/-- The local filesystem: regular files with byte contents, and
directories. -/
structure FS where
  files : List (FPath × List Nat)
  dirs : List FPath
deriving DecidableEq

/-- `open(p, "wb").write(data)`: create or overwrite the file at `p`. -/
def FS.writeFile (fs : FS) (p : FPath) (data : List Nat) : FS :=
  { fs with files := (p, data) :: fs.files.filter (fun e => decide (e.1 ≠ p)) }

/-- `os.makedirs(d, exist_ok=True)`. -/
def FS.mkdir (fs : FS) (d : FPath) : FS :=
  if d ∈ fs.dirs then fs else { fs with dirs := d :: fs.dirs }

/-- `os.path.isfile`. -/
def FS.isFile (fs : FS) (p : FPath) : Bool := fs.files.any (fun e => decide (e.1 = p))

/-- `os.path.isdir`. -/
def FS.isDir (fs : FS) (p : FPath) : Bool := fs.dirs.any (fun d => decide (d = p))

/-- `os.remove(p)` with exceptions swallowed: drop the file at `p` if there
is one, touch nothing else. -/
def FS.removeFileQuiet (fs : FS) (p : FPath) : FS :=
  { fs with files := fs.files.filter (fun e => decide (e.1 ≠ p)) }

/-- `shutil.rmtree(d)`: drop `d` and everything below it. -/
def FS.rmtree (fs : FS) (d : FPath) : FS :=
  { files := fs.files.filter (fun e => !startsWithSeg d e.1),
    dirs := fs.dirs.filter (fun x => !startsWithSeg d x) }

/-- One step of `ServerlessVocalRemover.cleanup_files` (handler.py lines
155-166): if the path is a file remove it, else if a directory remove it
recursively, else (or on any failure) do nothing. -/
def cleanup_one (fs : FS) (p : FPath) : FS :=
  if fs.isFile p then fs.removeFileQuiet p
  else if fs.isDir p then fs.rmtree p
  else fs

/-- `ServerlessVocalRemover.cleanup_files(*file_paths)`. -/
def cleanup_files (fs : FS) (ps : List FPath) : FS := ps.foldl cleanup_one fs

/-- `self.temp_dir = "/tmp/vocal_removal"` (handler.py line 28). -/
def temp_dir : FPath := ["tmp", "vocal_removal"]

/- ## The embedded source functions -/

/-- The name `decode_audio_file` gives the decoded input file
(`f"input_{datetime.now().strftime(...)}_{filename}"`, line 68). -/
def inputFileName (env : Env) (filename : String) : String :=
  "input_" ++ env.stampDecode ++ "_" ++ filename

/-- The full path of the decoded input file. -/
def inputFilePath (env : Env) (filename : String) : FPath :=
  temp_dir ++ [inputFileName env filename]

/-- `ServerlessVocalRemover.decode_audio_file` (handler.py lines 64-80):
base64-decode the payload and write it to a fresh file under the scratch
root; a decode failure is re-raised to the caller. -/
def decode_audio_file (env : Env) (audio_base64 : String) (filename : String)
    (fs : FS) : Except String FPath × FS × List Event :=
  let file_path := inputFilePath env filename
  match b64decodeStr audio_base64 with
  | Except.error e => (Except.error e, fs, [Event.decodeFile])
  | Except.ok audio_data =>
      (Except.ok file_path, fs.writeFile file_path audio_data, [Event.decodeFile])

/-- `ServerlessVocalRemover.encode_audio_file` (handler.py lines 82-94):
read the file and return its bytes base64-encoded; a missing file raises
(the `FileNotFoundError` message of `open`). -/
def encode_audio_file (file_path : FPath) (fs : FS) : Except String String :=
  match fs.files.find? (fun e => decide (e.1 = file_path)) with
  | some e => Except.ok (b64encodeStr e.2)
  | none => Except.error ("[Errno 2] No such file or directory: " ++ pathStr file_path)

/-- `timeout=300` at handler.py line 124. -/
def demucsTimeoutSeconds : Nat := 300

/-- The fixed demucs argument list (handler.py lines 108-119). -/
def buildDemucsCommand (model : String) (output_dir : FPath) (device : String)
    (input_path : FPath) : List String :=
  ["python", "-m", "demucs", "--mp3", "--two-stems=vocals", "-n", model,
   "-o", pathStr output_dir, "--device", device, "--shifts", "1",
   "--overlap", "0.25", "--jobs", "1", pathStr input_path]

/-- The message of `subprocess.TimeoutExpired` as `str(e)` renders it. -/
def timeoutMsg (cmd : List String) : String :=
  "Command " ++ String.intercalate " " cmd ++ " timed out after " ++
    toString demucsTimeoutSeconds ++ " seconds"

/-- The filename part of the glob pattern `no_vocals.*`. -/
def fnameNoVocals (f : String) : Bool := startsWithSeg "no_vocals.".data f.data

/-- The first glob (handler.py line 135):
`os.path.join(output_dir, model, input_filename, "no_vocals.*")`. -/
def matchesPrimary (output_dir : FPath) (model stem : String) (p : FPath) : Bool :=
  match p.drop output_dir.length with
  | [m, s, f] => startsWithSeg output_dir p && decide (m = model) &&
      decide (s = stem) && fnameNoVocals f
  | _ => false

/-- The fallback glob (handler.py line 140):
`os.path.join(output_dir, "**", "no_vocals.*")` with `recursive=True`
(`**` spans zero or more directories). -/
def matchesFallback (output_dir : FPath) (p : FPath) : Bool :=
  startsWithSeg output_dir p && decide (output_dir.length < p.length) &&
    fnameNoVocals (p.getLastD "")

/-- Intermediate directories the tool materializes when writing a file at
relative path `rel` below the output directory. -/
def toolDirs (output_dir : FPath) (rel : FPath) : List FPath :=
  ((List.range rel.length).drop 1).map (fun i => output_dir ++ rel.take i)

/-- One file written by the external tool, with its parent directories. -/
def toolWrite (output_dir : FPath) (fs : FS) (entry : FPath × List Nat) : FS :=
  ((toolDirs output_dir entry.1).foldl FS.mkdir fs).writeFile
    (output_dir ++ entry.1) entry.2

/-- The per-run demucs output directory (handler.py line 104). -/
def outputDirPath (env : Env) : FPath :=
  temp_dir ++ ["demucs_output_" ++ env.stampOutput]

/-- `ServerlessVocalRemover.remove_vocals_serverless` (handler.py lines
96-153): make the output directory, run demucs with a 300-second timeout
(non-zero exit raises with the captured stderr; timeout raises
`TimeoutExpired`), then look for `no_vocals.*` first under the documented
nested layout and, only if that finds nothing, anywhere below the output
directory; raise if both searches are empty, else return the first match. -/
def remove_vocals_serverless (env : Env) (input_path : FPath) (model : String)
    (fs : FS) : Except String FPath × FS × List Event :=
  let output_dir := outputDirPath env
  let fs1 := fs.mkdir output_dir
  let command := buildDemucsCommand model output_dir env.device input_path
  let inv : Invocation := { args := command, timeoutSeconds := demucsTimeoutSeconds }
  match env.tool with
  | ToolResult.timeout => (Except.error (timeoutMsg command), fs1, [Event.runTool inv])
  | ToolResult.exited rc _outText errText creates =>
      let fs2 := creates.foldl (toolWrite output_dir) fs1
      if rc ≠ 0 then
        (Except.error ("Demucs processing failed: " ++ errText), fs2,
          [Event.runTool inv])
      else
        let input_filename := splitextStem (input_path.getLastD "")
        match fs2.files.find? (fun e =>
            matchesPrimary output_dir model input_filename e.1) with
        | some e => (Except.ok e.1, fs2, [Event.runTool inv, Event.globSearchPrimary])
        | none =>
            match fs2.files.find? (fun e => matchesFallback output_dir e.1) with
            | some e => (Except.ok e.1, fs2,
                [Event.runTool inv, Event.globSearchPrimary, Event.globSearchFallback])
            | none => (Except.error "Could not find Demucs output file", fs2,
                [Event.runTool inv, Event.globSearchPrimary, Event.globSearchFallback])

/-- The body of the `try` block after a successful decode (handler.py lines
207-232 and the matching `except` clauses): run the separation, encode the
artifact, and build the response; on success remove the input file and the
artifact's directory (`cleanup_files(input_path, os.path.dirname(output_path))`,
line 230), on a raised error remove the input file only (lines 238-242). -/
def handlerCont (env : Env) (filename method : String) (input_path : FPath)
    (fs1 : FS) : Response × FS × List Event :=
  match remove_vocals_serverless env input_path method fs1 with
  | (Except.error e, fs2, ev2) =>
      (Response.failure e env.elapsed env.isoNow, fs2.removeFileQuiet input_path, ev2)
  | (Except.ok output_path, fs2, ev2) =>
      match encode_audio_file output_path fs2 with
      | Except.error e =>
          (Response.failure e env.elapsed env.isoNow,
            fs2.removeFileQuiet input_path, ev2)
      | Except.ok result_data =>
          (Response.success result_data env.elapsed method env.device
              (splitextStem filename ++ "_no_vocals.wav") env.isoNow,
            cleanup_files fs2 [input_path, output_path.dropLast], ev2)

/-- The `handler(job)` entry point (handler.py lines 171-252): read the job
input, fail fast with a bare error dictionary when `audio_data` is missing
or empty, otherwise decode the payload and continue with `handlerCont`,
never letting a raised error escape. -/
def handler (job : Job) (env : Env) (fs : FS) : Response × FS × List Event :=
  let job_input := job.input.getD {}
  let filename := job_input.filename.getD "audio.mp3"
  let method := job_input.method.getD "htdemucs_ft"
  match job_input.audio_data with
  | none => (Response.errorOnly "No audio data provided", fs, [])
  | some audio_data =>
      if audio_data = "" then (Response.errorOnly "No audio data provided", fs, [])
      else
        match decode_audio_file env audio_data filename fs with
        | (Except.error e, fs1, ev1) =>
            (Response.failure e env.elapsed env.isoNow, fs1, ev1)
        | (Except.ok input_path, fs1, ev1) =>
            let r := handlerCont env filename method input_path fs1
            (r.1, r.2.1, ev1 ++ r.2.2)

/-- `ev` is a subprocess run of the external tool. -/
def isRunTool : Event → Bool
  | Event.runTool _ => true
  | _ => false

/-- Declarative reading of the documented artifact pattern
`<output_dir>/<profile>/<input_stem>/no_vocals.*`. -/
def PrimaryMatch (output_dir : FPath) (model stem : String) (p : FPath) : Prop :=
  ∃ f t, p = output_dir ++ [model, stem, f] ∧ f = "no_vocals." ++ t

/-- Declarative reading of the fallback pattern
`<output_dir>/**/no_vocals.*` with `recursive=True`. -/
def FallbackMatch (output_dir : FPath) (p : FPath) : Prop :=
  ∃ mid f t, p = output_dir ++ mid ++ [f] ∧ f = "no_vocals." ++ t

/- ## Concrete fixtures -/

/-- A filesystem holding only the scratch root, as after process start. -/
def fsStart : FS := { files := [], dirs := [temp_dir] }

/-- A run in which the tool succeeds and writes the artifact at the
documented nested location for the decoded input `input_S1_song.mp3`. -/
def envSuccess : Env where
  stampDecode := "S1"
  stampOutput := "S2"
  device := "cuda"
  tool := ToolResult.exited 0 "" ""
    [(["htdemucs_ft", "input_S1_song", "no_vocals.mp3"], [1, 2, 3])]
  elapsed := 1
  isoNow := "T"

/-- A run in which the tool exits non-zero with captured output text. -/
def envToolFail : Env :=
  { envSuccess with tool := ToolResult.exited 1 "OUTTEXT" "E1" [] }

/-- A run in which the 300-second timeout fires. -/
def envToolTimeout : Env := { envSuccess with tool := ToolResult.timeout }

/-- A run in which the tool exits zero but writes nothing. -/
def envNoArtifact : Env :=
  { envSuccess with tool := ToolResult.exited 0 "" "" [] }

/-- A well-formed job: a valid payload (the bytes 1,2,3) and a filename. -/
def jobGood : Job :=
  { input := some { audio_data := some "AQID", filename := some "song.mp3", method := none } }

/-- A job whose input mapping lacks `audio_data`. -/
def jobNoAudio : Job := { input := some {} }

/-- A job whose payload is not decodable (five data characters). -/
def jobBadPayload : Job := { input := some { audio_data := some "abcde" } }

/- ## Derived request accessors -/

/-- `job_input.get("filename", "audio.mp3")` (handler.py line 195). -/
def jobFilename (job : Job) : String := (job.input.getD {}).filename.getD "audio.mp3"

/-- `job_input.get("method", "htdemucs_ft")` (handler.py line 196). -/
def jobMethod (job : Job) : String := (job.input.getD {}).method.getD "htdemucs_ft"

/-- The `if not audio_data` test (handler.py line 198): the payload is
absent or the empty string. -/
def audioMissing (job : Job) : Prop :=
  (job.input.getD {}).audio_data = none ∨ (job.input.getD {}).audio_data = some ""

instance (job : Job) : Decidable (audioMissing job) := by
  unfold audioMissing; infer_instance

/- ## Helper lemmas -/

theorem b64ValOf_b64CharOf : ∀ v, v < 64 → b64ValOf (b64CharOf v) = some v := by
  decide

theorem b64CharOf_ne_pad : ∀ v, v < 64 → b64CharOf v ≠ '=' := by
  decide

theorem b64Keep_b64CharOf : ∀ v, v < 64 → b64Keep (b64CharOf v) = true := by
  decide

theorem b64Keep_pad : b64Keep '=' = true := by decide

theorem b64encodeBytes_kept : ∀ bs : List Nat, (∀ b ∈ bs, b < 256) →
    ∀ c ∈ b64encodeBytes bs, b64Keep c = true
  | [], _ => by intro c hc; simp [b64encodeBytes] at hc
  | [a], h => by
      have ha : a < 256 := h a (by simp)
      intro c hc
      simp only [b64encodeBytes, List.mem_cons, List.not_mem_nil, or_false] at hc
      rcases hc with rfl | rfl | rfl | rfl
      · exact b64Keep_b64CharOf _ (by omega)
      · exact b64Keep_b64CharOf _ (by omega)
      · exact b64Keep_pad
      · exact b64Keep_pad
  | [a, b], h => by
      have ha : a < 256 := h a (by simp)
      have hb : b < 256 := h b (by simp)
      intro c hc
      simp only [b64encodeBytes, List.mem_cons, List.not_mem_nil, or_false] at hc
      rcases hc with rfl | rfl | rfl | rfl
      · exact b64Keep_b64CharOf _ (by omega)
      · exact b64Keep_b64CharOf _ (by omega)
      · exact b64Keep_b64CharOf _ (by omega)
      · exact b64Keep_pad
  | a :: b :: c :: rest, h => by
      have ha : a < 256 := h a (by simp)
      have hb : b < 256 := h b (by simp)
      have hc256 : c < 256 := h c (by simp)
      have ih := b64encodeBytes_kept rest (fun x hx => h x (by simp [hx]))
      intro ch hch
      simp only [b64encodeBytes, List.mem_cons] at hch
      rcases hch with rfl | rfl | rfl | rfl | hmem
      · exact b64Keep_b64CharOf _ (by omega)
      · exact b64Keep_b64CharOf _ (by omega)
      · exact b64Keep_b64CharOf _ (by omega)
      · exact b64Keep_b64CharOf _ (by omega)
      · exact ih ch hmem

theorem b64decodeCore_encode : ∀ bs : List Nat, (∀ b ∈ bs, b < 256) →
    b64decodeCore (b64encodeBytes bs) = Except.ok bs
  | [], _ => rfl
  | [a], h => by
      have ha : a < 256 := h a (by simp)
      have h1 : a / 4 < 64 := by omega
      have h2 : a % 4 * 16 < 64 := by omega
      simp only [b64encodeBytes, b64decodeCore, b64ValOf_b64CharOf _ h1,
        b64ValOf_b64CharOf _ h2, if_pos rfl, List.isEmpty_nil]
      simp [b64Byte1]
      omega
  | [a, b], h => by
      have ha : a < 256 := h a (by simp)
      have hb : b < 256 := h b (by simp)
      have h1 : a / 4 < 64 := by omega
      have h2 : a % 4 * 16 + b / 16 < 64 := by omega
      have h3 : b % 16 * 4 < 64 := by omega
      simp only [b64encodeBytes, b64decodeCore, b64ValOf_b64CharOf _ h1,
        b64ValOf_b64CharOf _ h2, b64ValOf_b64CharOf _ h3,
        if_neg (b64CharOf_ne_pad _ h3), if_pos rfl, List.isEmpty_nil]
      simp [b64Byte1, b64Byte2]
      constructor <;> omega
  | a :: b :: c :: d :: rest, h => by
      have ha : a < 256 := h a (by simp)
      have hb : b < 256 := h b (by simp)
      have hc : c < 256 := h c (by simp)
      have h1 : a / 4 < 64 := by omega
      have h2 : a % 4 * 16 + b / 16 < 64 := by omega
      have h3 : b % 16 * 4 + c / 64 < 64 := by omega
      have h4 : c % 64 < 64 := by omega
      have ih := b64decodeCore_encode (d :: rest)
        (fun x hx => h x (by simp at hx ⊢; tauto))
      simp only [b64encodeBytes, b64decodeCore, b64ValOf_b64CharOf _ h1,
        b64ValOf_b64CharOf _ h2, b64ValOf_b64CharOf _ h3, b64ValOf_b64CharOf _ h4,
        if_neg (b64CharOf_ne_pad _ h3), if_neg (b64CharOf_ne_pad _ h4), ih]
      simp [b64Byte1, b64Byte2, b64Byte3]
      refine ⟨by omega, by omega, by omega⟩
  | [a, b, c], h => by
      have ha : a < 256 := h a (by simp)
      have hb : b < 256 := h b (by simp)
      have hc : c < 256 := h c (by simp)
      have h1 : a / 4 < 64 := by omega
      have h2 : a % 4 * 16 + b / 16 < 64 := by omega
      have h3 : b % 16 * 4 + c / 64 < 64 := by omega
      have h4 : c % 64 < 64 := by omega
      simp only [b64encodeBytes, b64decodeCore, b64ValOf_b64CharOf _ h1,
        b64ValOf_b64CharOf _ h2, b64ValOf_b64CharOf _ h3, b64ValOf_b64CharOf _ h4,
        if_neg (b64CharOf_ne_pad _ h3), if_neg (b64CharOf_ne_pad _ h4)]
      simp [b64Byte1, b64Byte2, b64Byte3, b64decodeCore]
      refine ⟨by omega, by omega, by omega⟩

/-- Decoding a canonical encoding recovers the original bytes. -/
theorem b64decodeStr_encodeStr (bs : List Nat) (h : ∀ b ∈ bs, b < 256) :
    b64decodeStr (b64encodeStr bs) = Except.ok bs := by
  have hk := b64encodeBytes_kept bs h
  have : (b64encodeBytes bs).filter b64Keep = b64encodeBytes bs :=
    List.filter_eq_self.mpr hk
  simp only [b64decodeStr, b64encodeStr]
  rw [this]
  exact b64decodeCore_encode bs h

theorem str_append_ne_empty (s t : String) (h : s ≠ "") : s ++ t ≠ "" := by
  intro hc
  apply h
  have hd : s.data ++ t.data = [] := by
    have h2 := congrArg String.data hc
    simpa [String.data_append] using h2
  rcases List.append_eq_nil.mp hd with ⟨hs, _⟩
  exact String.ext hs

theorem b64decodeCore_shape : ∀ l : List Char,
    (∃ bs, b64decodeCore l = Except.ok bs) ∨
      b64decodeCore l = Except.error invalidPaddingMsg
  | [] => Or.inl ⟨[], rfl⟩
  | [_] => Or.inr rfl
  | [_, _] => Or.inr rfl
  | [_, _, _] => Or.inr rfl
  | c1 :: c2 :: c3 :: c4 :: rest => by
      have ih := b64decodeCore_shape rest
      simp only [b64decodeCore]
      rcases h1 : b64ValOf c1 with _ | v1 <;> rcases h2 : b64ValOf c2 with _ | v2
      · exact Or.inr rfl
      · exact Or.inr rfl
      · exact Or.inr rfl
      by_cases hc3 : c3 = '='
      · by_cases hc4 : c4 = '='
        · by_cases hr : rest.isEmpty
          · simp [hc3, hc4, hr]
          · simp [hc3, hc4, hr]
        · simp [hc3, hc4]
      · rcases h3 : b64ValOf c3 with _ | v3
        · simp [hc3, h3]
        · by_cases hc4 : c4 = '='
          · by_cases hr : rest.isEmpty
            · simp [hc3, h3, hc4, hr]
            · simp [hc3, h3, hc4, hr]
          · rcases h4 : b64ValOf c4 with _ | v4
            · simp [hc3, h3, hc4, h4]
            · rcases ih with ⟨bs, hok⟩ | herr
              · simp [hc3, h3, hc4, h4, hok]
              · simp [hc3, h3, hc4, h4, herr]

theorem b64decodeStr_error_eq (s : String) (e : String)
    (h : b64decodeStr s = Except.error e) : e = invalidPaddingMsg := by
  rcases b64decodeCore_shape (s.data.filter b64Keep) with ⟨bs, hok⟩ | herr
  · rw [b64decodeStr, hok] at h; cases h
  · rw [b64decodeStr, herr] at h; cases h; rfl

theorem startsWithSeg_iff {α : Type} [DecidableEq α] (pat l : List α) :
    startsWithSeg pat l = true ↔ ∃ t, l = pat ++ t := by
  unfold startsWithSeg
  rw [decide_eq_true_iff]
  constructor
  · intro h
    refine ⟨l.drop pat.length, ?_⟩
    conv_lhs => rw [← List.take_append_drop pat.length l]
    rw [h]
  · rintro ⟨t, rfl⟩
    exact List.take_left pat t

theorem startsWithSeg_refl {α : Type} [DecidableEq α] (l : List α) :
    startsWithSeg l l = true :=
  (startsWithSeg_iff l l).mpr ⟨[], (List.append_nil l).symm⟩

theorem hasSub_nil (l : List Char) : hasSub [] l = true := by
  cases l with
  | nil => rfl
  | cons c rest => simp [hasSub, startsWithSeg]

theorem hasSub_appendRight (n b : List Char) (h : hasSub n b = true) :
    ∀ a : List Char, hasSub n (a ++ b) = true
  | [] => h
  | c :: a2 => by
      simp only [List.cons_append, hasSub, Bool.or_eq_true]
      exact Or.inr (hasSub_appendRight n b h a2)

theorem hasSub_appendLeft (n : List Char) :
    ∀ a : List Char, hasSub n a = true → ∀ b : List Char, hasSub n (a ++ b) = true
  | [], h => by
      simp only [hasSub, List.isEmpty_iff] at h
      subst h
      intro b
      exact hasSub_nil b
  | c :: a2, h => by
      intro b
      simp only [hasSub, Bool.or_eq_true] at h
      simp only [List.cons_append, hasSub, Bool.or_eq_true]
      rcases h with h | h
      · left
        rcases (startsWithSeg_iff n (c :: a2)).mp h with ⟨t, ht⟩
        refine (startsWithSeg_iff n (c :: a2 ++ b)).mpr ⟨t ++ b, ?_⟩
        rw [ht, List.append_assoc]
      · exact Or.inr (hasSub_appendLeft n a2 h b)

theorem fnameNoVocals_iff (f : String) :
    fnameNoVocals f = true ↔ ∃ t : String, f = "no_vocals." ++ t := by
  unfold fnameNoVocals
  rw [startsWithSeg_iff]
  constructor
  · rintro ⟨td, htd⟩
    exact ⟨String.mk td, String.ext (by simpa [String.data_append] using htd)⟩
  · rintro ⟨t, rfl⟩
    exact ⟨t.data, by simp [String.data_append]⟩

theorem hasSub_self (n : List Char) : hasSub n n = true := by
  cases n with
  | nil => rfl
  | cons c rest => simp [hasSub, startsWithSeg_refl]

theorem startsWithSeg_append {α : Type} [DecidableEq α] (a b : List α) :
    startsWithSeg a (a ++ b) = true :=
  (startsWithSeg_iff a (a ++ b)).mpr ⟨b, rfl⟩

theorem matchesPrimary_iff (od : FPath) (model stem : String) (p : FPath) :
    matchesPrimary od model stem p = true ↔ PrimaryMatch od model stem p := by
  constructor
  · intro h
    unfold matchesPrimary at h
    rcases hdrop : p.drop od.length with _ | ⟨m, _ | ⟨s, _ | ⟨f, _ | ⟨x, xs⟩⟩⟩⟩ <;>
      rw [hdrop] at h <;> simp only [Bool.and_eq_true, decide_eq_true_iff] at h
    case cons.cons.cons.nil =>
      obtain ⟨⟨⟨h1, h2⟩, h3⟩, h4⟩ := h
      rcases (startsWithSeg_iff od p).mp h1 with ⟨t, hp⟩
      have ht : t = [m, s, f] := by
        have := hdrop
        rw [hp, List.drop_left] at this
        exact this
      rcases (fnameNoVocals_iff f).mp h4 with ⟨tt, hf⟩
      exact ⟨f, tt, by rw [hp, ht, h2, h3], hf⟩
    all_goals cases h
  · rintro ⟨f, tt, rfl, rfl⟩
    unfold matchesPrimary
    rw [List.drop_left]
    simp only [Bool.and_eq_true, decide_eq_true_iff]
    exact ⟨⟨⟨startsWithSeg_append od _, trivial⟩, trivial⟩,
      (fnameNoVocals_iff _).mpr ⟨tt, rfl⟩⟩

theorem matchesFallback_iff (od : FPath) (p : FPath) :
    matchesFallback od p = true ↔ FallbackMatch od p := by
  constructor
  · intro h
    unfold matchesFallback at h
    simp only [Bool.and_eq_true, decide_eq_true_iff] at h
    obtain ⟨⟨h1, h2⟩, h3⟩ := h
    rcases (startsWithSeg_iff od p).mp h1 with ⟨t, hp⟩
    rcases List.eq_nil_or_concat' t with rfl | ⟨mid, f, rfl⟩
    · rw [hp] at h2; simp at h2
    · have hlast : p.getLastD "" = f := by
        rw [hp, ← List.append_assoc]
        exact List.getLastD_concat _ _ _
      rw [hlast] at h3
      rcases (fnameNoVocals_iff f).mp h3 with ⟨tt, hf⟩
      exact ⟨mid, f, tt, by rw [hp, List.append_assoc], hf⟩
  · rintro ⟨mid, f, tt, rfl, rfl⟩
    unfold matchesFallback
    simp only [Bool.and_eq_true, decide_eq_true_iff]
    refine ⟨⟨?_, ?_⟩, ?_⟩
    · rw [List.append_assoc]
      exact startsWithSeg_append od _
    · simp [List.length_append]
    · rw [List.getLastD_concat]
      exact (fnameNoVocals_iff _).mpr ⟨tt, rfl⟩

theorem mem_files_removeFileQuiet {fs : FS} {p : FPath} {e : FPath × List Nat}
    (he : e ∈ (fs.removeFileQuiet p).files) : e ∈ fs.files ∧ e.1 ≠ p := by
  have he2 : e ∈ fs.files.filter (fun x => decide (x.1 ≠ p)) := he
  have h3 := List.mem_filter.mp he2
  exact ⟨h3.1, by simpa using h3.2⟩

theorem removeFileQuiet_not_mem (fs : FS) (p : FPath) :
    p ∉ (fs.removeFileQuiet p).files.map Prod.fst := by
  intro h
  rcases List.mem_map.mp h with ⟨e, he, hfst⟩
  exact (mem_files_removeFileQuiet he).2 hfst

theorem mem_files_rmtree {fs : FS} {d : FPath} {e : FPath × List Nat}
    (he : e ∈ (fs.rmtree d).files) : e ∈ fs.files ∧ startsWithSeg d e.1 = false := by
  have he2 : e ∈ fs.files.filter (fun x => !startsWithSeg d x.1) := he
  have h3 := List.mem_filter.mp he2
  exact ⟨h3.1, by simpa using h3.2⟩

theorem cleanup_one_files_sub {fs : FS} {q : FPath} {e : FPath × List Nat}
    (he : e ∈ (cleanup_one fs q).files) : e ∈ fs.files := by
  unfold cleanup_one at he
  split_ifs at he
  · exact (mem_files_removeFileQuiet he).1
  · exact (mem_files_rmtree he).1
  · exact he

theorem cleanup_one_not_self (fs : FS) (p : FPath) :
    p ∉ (cleanup_one fs p).files.map Prod.fst := by
  intro h
  rcases List.mem_map.mp h with ⟨e, he, hfst⟩
  unfold cleanup_one at he
  split_ifs at he with hf hd
  · exact (mem_files_removeFileQuiet he).2 hfst
  · have h2 := (mem_files_rmtree he).2
    rw [hfst, startsWithSeg_refl] at h2
    cases h2
  · apply hf
    unfold FS.isFile
    exact List.any_eq_true.mpr ⟨e, he, by simp [hfst]⟩

theorem not_mem_map_fst_sub {l1 l2 : List (FPath × List Nat)} {p : FPath}
    (hsub : ∀ e, e ∈ l2 → e ∈ l1) (hp : p ∉ l1.map Prod.fst) :
    p ∉ l2.map Prod.fst := by
  intro h
  rcases List.mem_map.mp h with ⟨e, he, hfst⟩
  exact hp (List.mem_map.mpr ⟨e, hsub e he, hfst⟩)

theorem remove_vocals_error_ne (env : Env) (ip : FPath) (model : String) (fs : FS)
    {e : String} {fs2 : FS} {ev : List Event}
    (h : remove_vocals_serverless env ip model fs = (Except.error e, fs2, ev)) :
    e ≠ "" := by
  simp only [remove_vocals_serverless] at h
  rcases htool : env.tool with _ | ⟨rc, o, er, cr⟩ <;> rw [htool] at h <;>
    simp only [] at h
  · simp only [Prod.mk.injEq, Except.error.injEq] at h
    rw [← h.1]
    unfold timeoutMsg
    apply str_append_ne_empty
    apply str_append_ne_empty
    apply str_append_ne_empty
    apply str_append_ne_empty
    decide
  · split_ifs at h with hrc
    · simp only [Prod.mk.injEq, Except.error.injEq] at h
      rw [← h.1]
      apply str_append_ne_empty
      decide
    · split at h
      · simp at h
      · split at h
        · simp at h
        · simp only [Prod.mk.injEq, Except.error.injEq] at h
          rw [← h.1]
          decide

theorem encode_error_ne {p : FPath} {fs : FS} {e : String}
    (h : encode_audio_file p fs = Except.error e) : e ≠ "" := by
  unfold encode_audio_file at h
  split at h
  · simp at h
  · simp only [Except.error.injEq] at h
    rw [← h]
    apply str_append_ne_empty
    decide

theorem handlerCont_shape (env : Env) (filename method : String) (ip : FPath)
    (fs1 : FS) :
    (∃ e, (handlerCont env filename method ip fs1).1 =
        Response.failure e env.elapsed env.isoNow ∧ e ≠ "") ∨
    (∃ pa, (handlerCont env filename method ip fs1).1 =
        Response.success pa env.elapsed method env.device
          (splitextStem filename ++ "_no_vocals.wav") env.isoNow) := by
  rcases hrv : remove_vocals_serverless env ip method fs1 with ⟨res, fs2, ev2⟩
  rcases res with e | p
  · left
    exact ⟨e, by simp [handlerCont, hrv], remove_vocals_error_ne env ip method fs1 hrv⟩
  · rcases henc : encode_audio_file p fs2 with e2 | data
    · left
      exact ⟨e2, by simp [handlerCont, hrv, henc], encode_error_ne henc⟩
    · right
      exact ⟨data, by simp [handlerCont, hrv, henc]⟩

theorem handlerCont_input_gone (env : Env) (filename method : String) (ip : FPath)
    (fs1 : FS) :
    ip ∉ (handlerCont env filename method ip fs1).2.1.files.map Prod.fst := by
  rcases hrv : remove_vocals_serverless env ip method fs1 with ⟨res, fs2, ev2⟩
  rcases res with e | p
  · simp only [handlerCont, hrv]
    exact removeFileQuiet_not_mem fs2 ip
  · rcases henc : encode_audio_file p fs2 with e2 | data
    · simp only [handlerCont, hrv, henc]
      exact removeFileQuiet_not_mem fs2 ip
    · simp only [handlerCont, hrv, henc]
      unfold cleanup_files
      simp only [List.foldl]
      exact not_mem_map_fst_sub (fun e he => cleanup_one_files_sub he)
        (cleanup_one_not_self fs2 ip)

theorem handlerCont_trace (env : Env) (filename method : String) (ip : FPath)
    (fs1 : FS) :
    (handlerCont env filename method ip fs1).2.2 =
      (remove_vocals_serverless env ip method fs1).2.2 := by
  rcases hrv : remove_vocals_serverless env ip method fs1 with ⟨res, fs2, ev2⟩
  rcases res with e | p
  · simp [handlerCont, hrv]
  · rcases henc : encode_audio_file p fs2 with e2 | data <;>
      simp [handlerCont, hrv, henc]

theorem remove_vocals_trace (env : Env) (ip : FPath) (model : String) (fs : FS) :
    ∃ rest, (remove_vocals_serverless env ip model fs).2.2 =
        Event.runTool ⟨buildDemucsCommand model (outputDirPath env) env.device ip,
          demucsTimeoutSeconds⟩ :: rest ∧
      ∀ ev ∈ rest, isRunTool ev = false := by
  simp only [remove_vocals_serverless]
  rcases env.tool with _ | ⟨rc, o, er, cr⟩
  · exact ⟨[], rfl, by simp⟩
  · by_cases hrc : rc ≠ 0
    · refine ⟨[], ?_, by simp⟩
      simp [hrc]
    · simp only [hrc, if_false, ite_false, if_neg]
      split
      · exact ⟨[Event.globSearchPrimary], by simp [hrc], by simp [isRunTool]⟩
      · split
        · exact ⟨[Event.globSearchPrimary, Event.globSearchFallback],
            by simp [hrc], by simp [isRunTool]⟩
        · exact ⟨[Event.globSearchPrimary, Event.globSearchFallback],
            by simp [hrc], by simp [isRunTool]⟩

theorem handler_shape (job : Job) (env : Env) (fs : FS) :
    (audioMissing job ∧ handler job env fs =
        (Response.errorOnly "No audio data provided", fs, [])) ∨
    (¬ audioMissing job ∧
      ((∃ e, (handler job env fs).1 = Response.failure e env.elapsed env.isoNow ∧
          e ≠ "") ∨
       (∃ pa, (handler job env fs).1 = Response.success pa env.elapsed
          (jobMethod job) env.device
          (splitextStem (jobFilename job) ++ "_no_vocals.wav") env.isoNow))) := by
  rcases job with ⟨oji⟩
  rcases oji with _ | ⟨oad, ofn, om⟩
  · left
    exact ⟨Or.inl rfl, rfl⟩
  · rcases oad with _ | s
    · left
      exact ⟨Or.inl rfl, rfl⟩
    · by_cases hs : s = ""
      · subst hs
        left
        exact ⟨Or.inr rfl, by simp [handler]⟩
      · right
        refine ⟨by simp [audioMissing, hs], ?_⟩
        rcases hdec : b64decodeStr s with e | bs
        · left
          refine ⟨e, ?_, ?_⟩
          · simp [handler, decode_audio_file, hdec, hs]
          · rw [b64decodeStr_error_eq s e hdec]
            decide
        · have heq : (handler ⟨some ⟨some s, ofn, om⟩⟩ env fs).1 =
              (handlerCont env (ofn.getD "audio.mp3") (om.getD "htdemucs_ft")
                (inputFilePath env (ofn.getD "audio.mp3"))
                (fs.writeFile (inputFilePath env (ofn.getD "audio.mp3")) bs)).1 := by
            simp [handler, decode_audio_file, hdec, hs]
          rw [heq]
          exact handlerCont_shape env (ofn.getD "audio.mp3") (om.getD "htdemucs_ft")
            (inputFilePath env (ofn.getD "audio.mp3"))
            (fs.writeFile (inputFilePath env (ofn.getD "audio.mp3")) bs)

/-- C2 (amended): after any `handler` call the decoded input file created
during that call is no longer present; but not every file and directory
created during the call is removed — the tool's output directory tree
survives (entirely on failure; above the discovered artifact's directory
on success), as the counterexample shows. -/
theorem handler_input_gone (job : Job) (env : Env) (fs : FS)
    (hp : inputFilePath env (jobFilename job) ∉ fs.files.map Prod.fst) :
    inputFilePath env (jobFilename job) ∉
      (handler job env fs).2.1.files.map Prod.fst := by
  rcases job with ⟨oji⟩
  rcases oji with _ | ⟨oad, ofn, om⟩
  · exact hp
  · rcases oad with _ | s
    · exact hp
    · by_cases hs : s = ""
      · subst hs
        have heq : (handler ⟨some ⟨some "", ofn, om⟩⟩ env fs).2.1 = fs := by
          simp [handler]
        rw [heq]
        exact hp
      · rcases hdec : b64decodeStr s with e | bs
        · have heq : (handler ⟨some ⟨some s, ofn, om⟩⟩ env fs).2.1 = fs := by
            simp [handler, decode_audio_file, hdec, hs]
          rw [heq]
          exact hp
        · have heq : (handler ⟨some ⟨some s, ofn, om⟩⟩ env fs).2.1 =
              (handlerCont env (ofn.getD "audio.mp3") (om.getD "htdemucs_ft")
                (inputFilePath env (ofn.getD "audio.mp3"))
                (fs.writeFile (inputFilePath env (ofn.getD "audio.mp3")) bs)).2.1 := by
            simp [handler, decode_audio_file, hdec, hs]
          rw [heq]
          exact handlerCont_input_gone env (ofn.getD "audio.mp3")
            (om.getD "htdemucs_ft") (inputFilePath env (ofn.getD "audio.mp3"))
            (fs.writeFile (inputFilePath env (ofn.getD "audio.mp3")) bs)

theorem handler_trace_shape (job : Job) (env : Env) (fs : FS) :
    (handler job env fs).2.2 = [] ∨
    (handler job env fs).2.2 = [Event.decodeFile] ∨
    ∃ rest, (handler job env fs).2.2 =
        Event.decodeFile :: Event.runTool ⟨buildDemucsCommand (jobMethod job)
          (outputDirPath env) env.device (inputFilePath env (jobFilename job)),
          demucsTimeoutSeconds⟩ :: rest ∧
      ∀ ev ∈ rest, isRunTool ev = false := by
  rcases job with ⟨oji⟩
  rcases oji with _ | ⟨oad, ofn, om⟩
  · left; rfl
  · rcases oad with _ | s
    · left; rfl
    · by_cases hs : s = ""
      · subst hs
        left
        simp [handler]
      · rcases hdec : b64decodeStr s with e | bs
        · right; left
          simp [handler, decode_audio_file, hdec, hs]
        · right; right
          have heq : (handler ⟨some ⟨some s, ofn, om⟩⟩ env fs).2.2 =
              Event.decodeFile :: (handlerCont env (ofn.getD "audio.mp3")
                (om.getD "htdemucs_ft") (inputFilePath env (ofn.getD "audio.mp3"))
                (fs.writeFile (inputFilePath env (ofn.getD "audio.mp3")) bs)).2.2 := by
            simp [handler, decode_audio_file, hdec, hs]
          rw [heq, handlerCont_trace]
          rcases remove_vocals_trace env (inputFilePath env (ofn.getD "audio.mp3"))
            (om.getD "htdemucs_ft")
            (fs.writeFile (inputFilePath env (ofn.getD "audio.mp3")) bs) with
            ⟨rest, hr, hnone⟩
          refine ⟨rest, ?_, hnone⟩
          rw [hr]
          rfl

theorem timeoutMsg_hasSub (cmd : List String) :
    hasSub "timed out".data (timeoutMsg cmd).data = true := by
  unfold timeoutMsg
  rw [String.data_append, String.data_append, String.data_append,
    String.data_append]
  exact hasSub_appendLeft _ _
    (hasSub_appendLeft _ _ (hasSub_appendRight _ _ (by decide) _) _) _

/- ## Claim theorems -/

/-- C7: for every valid non-empty text-encoded payload (an encoding of some
byte list), `decode_audio_file` writes the decoded bytes to the input file
and `encode_audio_file` on that identical file yields back the original
payload: the decode/encode round-trip holds. -/
theorem decode_encode_roundtrip (env : Env) (fs : FS) (filename : String)
    (bs : List Nat) (h256 : ∀ b ∈ bs, b < 256) (payload : String)
    (hp : payload = b64encodeStr bs) (hne : payload ≠ "") :
    ∃ fs2 ev, decode_audio_file env payload filename fs =
        (Except.ok (inputFilePath env filename), fs2, ev) ∧
      encode_audio_file (inputFilePath env filename) fs2 = Except.ok payload := by
  subst hp
  have hdec := b64decodeStr_encodeStr bs h256
  refine ⟨fs.writeFile (inputFilePath env filename) bs, [Event.decodeFile], ?_, ?_⟩
  · simp [decode_audio_file, hdec]
  · unfold encode_audio_file
    have hfiles : (fs.writeFile (inputFilePath env filename) bs).files =
        (inputFilePath env filename, bs) ::
          fs.files.filter (fun e => decide (e.1 ≠ inputFilePath env filename)) := rfl
    rw [hfiles, List.find?_cons_of_pos]
    · simp

/-- Witness for C7 at the payload `"TWFu"`, the encoding of bytes 77 97 110. -/
theorem decode_encode_roundtrip_witness :
    (∀ b ∈ [77, 97, 110], b < 256) ∧ "TWFu" = b64encodeStr [77, 97, 110] ∧
    ("TWFu" : String) ≠ "" ∧
    ∃ fs2 ev, decode_audio_file envSuccess "TWFu" "song.mp3" fsStart =
        (Except.ok (inputFilePath envSuccess "song.mp3"), fs2, ev) ∧
      encode_audio_file (inputFilePath envSuccess "song.mp3") fs2 =
        Except.ok "TWFu" :=
  ⟨by decide, by decide, by decide,
    decode_encode_roundtrip envSuccess fsStart "song.mp3" [77, 97, 110]
      (by decide) "TWFu" (by decide) (by decide)⟩

/-- C9 counterexample: the claim says `decode` fails with an invalid-input
error on an empty payload, but `decode_audio_file` performs no emptiness
check: the empty payload decodes to the empty byte string and an empty
input file is written and its path returned. -/
theorem decode_empty_payload_succeeds :
    decode_audio_file envSuccess "" "audio.mp3" fsStart =
      (Except.ok (inputFilePath envSuccess "audio.mp3"),
        fsStart.writeFile (inputFilePath envSuccess "audio.mp3") [],
        [Event.decodeFile]) := by
  rfl

/-- C9 (amended): `decode_audio_file` performs no emptiness validation; it
fails exactly when the payload is not decodable (propagating the decode
error), and on success (including the empty payload) writes the decoded
bytes to the file named from the timestamp and the original filename and
returns that path. -/
theorem decode_audio_file_spec (env : Env) (payload filename : String) (fs : FS) :
    (∀ e, b64decodeStr payload = Except.error e →
        decode_audio_file env payload filename fs =
          (Except.error e, fs, [Event.decodeFile])) ∧
    (∀ bs, b64decodeStr payload = Except.ok bs →
        decode_audio_file env payload filename fs =
          (Except.ok (inputFilePath env filename),
            fs.writeFile (inputFilePath env filename) bs, [Event.decodeFile])) := by
  constructor <;> intro x h <;> simp [decode_audio_file, h]

/-- Witness for C9's amended theorem at the undecodable payload `"abcde"`. -/
theorem decode_audio_file_spec_witness :
    b64decodeStr "abcde" = Except.error invalidPaddingMsg ∧
    decode_audio_file envSuccess "abcde" "audio.mp3" fsStart =
      (Except.error invalidPaddingMsg, fsStart, [Event.decodeFile]) :=
  ⟨rfl,
    (decode_audio_file_spec envSuccess "abcde" "audio.mp3" fsStart).1
      invalidPaddingMsg rfl⟩

theorem remove_vocals_fs (env : Env) (ip : FPath) (model : String) (fs : FS)
    (rc : Int) (o er : String) (cr : List (FPath × List Nat))
    (htool : env.tool = ToolResult.exited rc o er cr) :
    (remove_vocals_serverless env ip model fs).2.1 =
      List.foldl (toolWrite (outputDirPath env)) (fs.mkdir (outputDirPath env)) cr := by
  simp only [remove_vocals_serverless, htool]
  split_ifs with h
  · rfl
  · split
    · rfl
    · split <;> rfl

/-- C5: after a zero-exit run of the tool, the search looks for the
artifact first at the documented pattern
`<output_dir>/<profile>/<input_stem>/no_vocals.*` (the executable matcher
is proved equivalent to that declarative pattern, and likewise the
fallback `<output_dir>/**/no_vocals.*`); the first match of the primary
glob is returned when there is one; exactly when the primary glob is empty
the recursive search runs (witnessed by its trace event), returning its
first match; when both are empty the output-not-found error is raised. -/
theorem separate_artifact_search (env : Env) (ip : FPath) (model : String)
    (fs : FS) (outText errText : String) (creates : List (FPath × List Nat))
    (htool : env.tool = ToolResult.exited 0 outText errText creates) :
    (∀ p, matchesPrimary (outputDirPath env) model
        (splitextStem (ip.getLastD "")) p = true ↔
      PrimaryMatch (outputDirPath env) model (splitextStem (ip.getLastD "")) p) ∧
    (∀ p, matchesFallback (outputDirPath env) p = true ↔
      FallbackMatch (outputDirPath env) p) ∧
    (∀ e, (remove_vocals_serverless env ip model fs).2.1.files.find?
          (fun x => matchesPrimary (outputDirPath env) model
            (splitextStem (ip.getLastD "")) x.1) = some e →
      (remove_vocals_serverless env ip model fs).1 = Except.ok e.1) ∧
    ((remove_vocals_serverless env ip model fs).2.1.files.find?
          (fun x => matchesPrimary (outputDirPath env) model
            (splitextStem (ip.getLastD "")) x.1) = none →
      (∀ e, (remove_vocals_serverless env ip model fs).2.1.files.find?
            (fun x => matchesFallback (outputDirPath env) x.1) = some e →
        (remove_vocals_serverless env ip model fs).1 = Except.ok e.1) ∧
      ((remove_vocals_serverless env ip model fs).2.1.files.find?
            (fun x => matchesFallback (outputDirPath env) x.1) = none →
        (remove_vocals_serverless env ip model fs).1 =
          Except.error "Could not find Demucs output file")) ∧
    (Event.globSearchFallback ∈ (remove_vocals_serverless env ip model fs).2.2 ↔
      (remove_vocals_serverless env ip model fs).2.1.files.find?
        (fun x => matchesPrimary (outputDirPath env) model
          (splitextStem (ip.getLastD "")) x.1) = none) := by
  refine ⟨fun p => matchesPrimary_iff _ _ _ p, fun p => matchesFallback_iff _ p,
    ?_, ?_, ?_⟩ <;>
    simp only [remove_vocals_fs env ip model fs 0 outText errText creates htool,
      List.getLastD_eq_getLast?]
  · intro e he
    simp [remove_vocals_serverless, htool, he]
  · intro h1
    refine ⟨fun e he2 => ?_, fun h2 => ?_⟩
    · simp [remove_vocals_serverless, htool, h1, he2]
    · simp [remove_vocals_serverless, htool, h1, h2]
  · rcases hf1 : (List.foldl (toolWrite (outputDirPath env))
        (fs.mkdir (outputDirPath env)) creates).files.find?
        (fun x => matchesPrimary (outputDirPath env) model
          (splitextStem (ip.getLast?.getD "")) x.1) with _ | e1
    · rcases hf2 : (List.foldl (toolWrite (outputDirPath env))
          (fs.mkdir (outputDirPath env)) creates).files.find?
          (fun x => matchesFallback (outputDirPath env) x.1) with _ | e2 <;>
        simp [remove_vocals_serverless, htool, hf1, hf2]
    · simp [remove_vocals_serverless, htool, hf1]

/-- Witness for C5: a run in which the tool writes the artifact at the
documented nested location; the primary search finds it and its path is
returned. -/
theorem separate_artifact_search_witness :
    envSuccess.tool = ToolResult.exited 0 "" ""
      [(["htdemucs_ft", "input_S1_song", "no_vocals.mp3"], [1, 2, 3])] ∧
    (remove_vocals_serverless envSuccess (inputFilePath envSuccess "song.mp3")
        "htdemucs_ft" fsStart).1 =
      Except.ok (outputDirPath envSuccess ++
        ["htdemucs_ft", "input_S1_song", "no_vocals.mp3"]) :=
  ⟨rfl, by
    have h := (separate_artifact_search envSuccess
      (inputFilePath envSuccess "song.mp3") "htdemucs_ft" fsStart "" ""
      [(["htdemucs_ft", "input_S1_song", "no_vocals.mp3"], [1, 2, 3])] rfl).2.2.1
    exact h (outputDirPath envSuccess ++
      ["htdemucs_ft", "input_S1_song", "no_vocals.mp3"], [1, 2, 3]) rfl⟩

/-- C1 counterexample: for the job with no `audio_data`, `handler` returns
the bare `{"error": ...}` dictionary, which carries no `success` key at
all, contradicting the claim that every malformed job gets a mapping with
`success: false`. -/
theorem handler_missing_audio_no_success_key :
    (handler jobNoAudio envSuccess fsStart).1.successFlag = none ∧
    "success" ∉ (handler jobNoAudio envSuccess fsStart).1.fields ∧
    (handler jobNoAudio envSuccess fsStart).1.errorText =
      some "No audio data provided" := by
  decide

/-- C1 (amended): `handler` is a total function (it never raises); any
response carrying `success: false` carries a non-empty error string; a
missing or empty payload yields the bare error dictionary with no
`success` key; every other job gets a response with a `success` key. -/
theorem handler_never_raises_error_shape (job : Job) (env : Env) (fs : FS) :
    ((handler job env fs).1.successFlag = some false →
      ∃ e, (handler job env fs).1.errorText = some e ∧ e ≠ "") ∧
    (audioMissing job →
      (handler job env fs).1 = Response.errorOnly "No audio data provided" ∧
      (handler job env fs).1.successFlag = none) ∧
    (¬ audioMissing job →
      (handler job env fs).1.successFlag = some true ∨
        (handler job env fs).1.successFlag = some false) := by
  rcases handler_shape job env fs with ⟨hm, heq⟩ | ⟨hm, hf | hsuc⟩
  · have h1 : (handler job env fs).1 = Response.errorOnly "No audio data provided" := by
      rw [heq]
    refine ⟨?_, fun _ => ⟨h1, by rw [h1]; rfl⟩, fun hc => absurd hm hc⟩
    rw [h1]
    intro hcontra
    simp [Response.successFlag] at hcontra
  · rcases hf with ⟨e, he, hne⟩
    exact ⟨fun _ => ⟨e, by rw [he]; rfl, hne⟩, fun hc => absurd hc hm,
      fun _ => Or.inr (by rw [he]; rfl)⟩
  · rcases hsuc with ⟨pa, hp⟩
    refine ⟨?_, fun hc => absurd hc hm, fun _ => Or.inl (by rw [hp]; rfl)⟩
    rw [hp]
    intro hcontra
    simp [Response.successFlag] at hcontra

/-- Witness for C1's amended theorem at a job whose payload is not
decodable: the failure response carries a non-empty error. -/
theorem handler_never_raises_error_shape_witness :
    ∃ e, (handler jobBadPayload envSuccess fsStart).1.errorText = some e ∧
      e ≠ "" :=
  (handler_never_raises_error_shape jobBadPayload envSuccess fsStart).1 (by decide)

/-- C3 counterexample: the missing-payload response is the bare
`{"error": ...}` dictionary; contrary to the claim it does not include the
elapsed processing time or a timestamp. -/
theorem handler_missing_audio_fields_cex :
    (handler jobNoAudio envToolFail fsStart).1.fields = ["error"] ∧
    "processing_time" ∉ (handler jobNoAudio envToolFail fsStart).1.fields ∧
    "timestamp" ∉ (handler jobNoAudio envToolFail fsStart).1.fields := by
  decide

/-- C3 (amended): a job with a missing (or empty) `audio_data` fails fast:
`handler` returns the bare error dictionary, leaves the filesystem
untouched (no decode, no file write) and performs no processing step at
all (empty trace, so no subprocess invocation). -/
theorem handler_missing_audio_fast_fail (job : Job) (env : Env) (fs : FS)
    (h : audioMissing job) :
    handler job env fs = (Response.errorOnly "No audio data provided", fs, []) := by
  rcases handler_shape job env fs with ⟨_, heq⟩ | ⟨hm, _⟩
  · exact heq
  · exact absurd h hm

/-- Witness for C3's amended theorem at the job `{"input": {}}`. -/
theorem handler_missing_audio_fast_fail_witness :
    audioMissing jobNoAudio ∧
    handler jobNoAudio envSuccess fsStart =
      (Response.errorOnly "No audio data provided", fsStart, []) :=
  ⟨by decide, handler_missing_audio_fast_fail jobNoAudio envSuccess fsStart (by decide)⟩

/-- C8 counterexample: the missing-payload response is a third shape,
distinct from both the success dictionary and the failure dictionary, so
jobs do not always produce one of the two claimed shapes. -/
theorem handler_third_shape_cex :
    (handler jobNoAudio envNoArtifact fsStart).1.fields ≠ successKeys ∧
    (handler jobNoAudio envNoArtifact fsStart).1.fields ≠ failureKeys := by
  decide

/-- C8 (amended): every response has exactly one of three key sets: the
success keys (`success`, `processed_audio`, `processing_time`, `method`,
`gpu_used`, `output_filename`, `timestamp`, `serverless`), the failure
keys (`success`, `error`, `processing_time`, `timestamp`, `serverless`),
or — exactly for a job with missing or empty `audio_data` — the single
key `error`. -/
theorem handler_response_shapes (job : Job) (env : Env) (fs : FS) :
    ((handler job env fs).1.fields = ["error"] ∨
     (handler job env fs).1.fields = successKeys ∨
     (handler job env fs).1.fields = failureKeys) ∧
    ((handler job env fs).1.fields = ["error"] ↔ audioMissing job) := by
  rcases handler_shape job env fs with ⟨hm, heq⟩ | ⟨hm, hf | hsuc⟩
  · have h1 : (handler job env fs).1 = Response.errorOnly "No audio data provided" := by
      rw [heq]
    exact ⟨Or.inl (by rw [h1]; rfl), ⟨fun _ => hm, fun _ => by rw [h1]; rfl⟩⟩
  · rcases hf with ⟨e, he, _⟩
    refine ⟨Or.inr (Or.inr (by rw [he]; rfl)), ⟨fun hc => ?_, fun hc => absurd hc hm⟩⟩
    rw [he] at hc
    simp [Response.fields, failureKeys] at hc
  · rcases hsuc with ⟨pa, hp⟩
    refine ⟨Or.inr (Or.inl (by rw [hp]; rfl)), ⟨fun hc => ?_, fun hc => absurd hc hm⟩⟩
    rw [hp] at hc
    simp [Response.fields, successKeys] at hc

/-- Witness for C8's amended theorem at a successful job. -/
theorem handler_response_shapes_witness :
    ((handler jobGood envSuccess fsStart).1.fields = ["error"] ∨
     (handler jobGood envSuccess fsStart).1.fields = successKeys ∨
     (handler jobGood envSuccess fsStart).1.fields = failureKeys) ∧
    ((handler jobGood envSuccess fsStart).1.fields = ["error"] ↔
      audioMissing jobGood) :=
  handler_response_shapes jobGood envSuccess fsStart

/-- C2 counterexample: a fully successful job leaves the per-run demucs
output directory (created during the call) behind under the scratch root,
so not everything created during the call is removed before the response
is returned. -/
theorem handler_leftover_dir_cex :
    (handler jobGood envSuccess fsStart).1.successFlag = some true ∧
    outputDirPath envSuccess ∈ (handler jobGood envSuccess fsStart).2.1.dirs ∧
    outputDirPath envSuccess ∉ fsStart.dirs := by
  decide

/-- Witness for C2's amended theorem at a successful job whose input file
did not pre-exist. -/
theorem handler_input_gone_witness :
    inputFilePath envSuccess (jobFilename jobGood) ∉ fsStart.files.map Prod.fst ∧
    inputFilePath envSuccess (jobFilename jobGood) ∉
      (handler jobGood envSuccess fsStart).2.1.files.map Prod.fst :=
  ⟨by decide, handler_input_gone jobGood envSuccess fsStart (by decide)⟩

/-- C4 counterexample: when the tool exits non-zero, the error carried into
the response contains the captured standard-error text only; the captured
standard-output text (`"OUTTEXT"`, only logged by the source) does not
occur in it, contradicting the claim that the error carries both. -/
theorem separate_stdout_not_carried_cex :
    (handler jobGood envToolFail fsStart).1.errorText =
      some "Demucs processing failed: E1" ∧
    hasSub "OUTTEXT".data "Demucs processing failed: E1".data = false := by
  decide

/-- C4 (amended): when the tool exits non-zero on a decodable job, the
raised error carries the captured standard-error text (standard output is
only logged), no artifact search is performed (no glob event is in the
trace), and the job's response is a failure containing that diagnostic
text. -/
theorem separate_nonzero_exit (env : Env) (fs : FS) (s : String)
    (bs : List Nat) (ofn om : Option String) (rc : Int)
    (outText errText : String) (creates : List (FPath × List Nat))
    (hs : s ≠ "") (hdec : b64decodeStr s = Except.ok bs)
    (htool : env.tool = ToolResult.exited rc outText errText creates)
    (hrc : rc ≠ 0) :
    (handler ⟨some ⟨some s, ofn, om⟩⟩ env fs).1 =
      Response.failure ("Demucs processing failed: " ++ errText)
        env.elapsed env.isoNow ∧
    hasSub errText.data ("Demucs processing failed: " ++ errText).data = true ∧
    Event.globSearchPrimary ∉ (handler ⟨some ⟨some s, ofn, om⟩⟩ env fs).2.2 ∧
    Event.globSearchFallback ∉ (handler ⟨some ⟨some s, ofn, om⟩⟩ env fs).2.2 := by
  have h2 : (handler ⟨some ⟨some s, ofn, om⟩⟩ env fs).2.2 =
      [Event.decodeFile, Event.runTool
        ⟨buildDemucsCommand (om.getD "htdemucs_ft") (outputDirPath env)
          env.device (inputFilePath env (ofn.getD "audio.mp3")),
          demucsTimeoutSeconds⟩] := by
    simp [handler, decode_audio_file, hdec, hs, handlerCont,
      remove_vocals_serverless, htool, hrc]
  refine ⟨?_, ?_, ?_, ?_⟩
  · simp [handler, decode_audio_file, hdec, hs, handlerCont,
      remove_vocals_serverless, htool, hrc]
  · rw [String.data_append]
    exact hasSub_appendRight _ _ (hasSub_self _) _
  · rw [h2]
    simp
  · rw [h2]
    simp

/-- Witness for C4's amended theorem at the concrete failing-tool run. -/
theorem separate_nonzero_exit_witness :
    (handler jobGood envToolFail fsStart).1 =
      Response.failure ("Demucs processing failed: " ++ "E1")
        envToolFail.elapsed envToolFail.isoNow ∧
    hasSub "E1".data ("Demucs processing failed: " ++ "E1").data = true ∧
    Event.globSearchPrimary ∉ (handler jobGood envToolFail fsStart).2.2 ∧
    Event.globSearchFallback ∉ (handler jobGood envToolFail fsStart).2.2 :=
  separate_nonzero_exit envToolFail fsStart "AQID" [1, 2, 3]
    (some "song.mp3") none 1 "OUTTEXT" "E1" [] (by decide) rfl rfl (by decide)

/-- C6: the external subprocess is invoked with a wall-clock timeout of
exactly 300 seconds; when it fires, the job is not retried (the trace
holds exactly one tool invocation, carrying `timeoutSeconds = 300`) and
the response is a failure whose error text contains "timed out". -/
theorem separate_timeout (env : Env) (fs : FS) (s : String) (bs : List Nat)
    (ofn om : Option String) (hs : s ≠ "")
    (hdec : b64decodeStr s = Except.ok bs)
    (htool : env.tool = ToolResult.timeout) :
    (handler ⟨some ⟨some s, ofn, om⟩⟩ env fs).1 =
      Response.failure (timeoutMsg (buildDemucsCommand (om.getD "htdemucs_ft")
        (outputDirPath env) env.device (inputFilePath env (ofn.getD "audio.mp3"))))
        env.elapsed env.isoNow ∧
    hasSub "timed out".data (timeoutMsg (buildDemucsCommand (om.getD "htdemucs_ft")
      (outputDirPath env) env.device
      (inputFilePath env (ofn.getD "audio.mp3")))).data = true ∧
    (handler ⟨some ⟨some s, ofn, om⟩⟩ env fs).2.2 =
      [Event.decodeFile, Event.runTool
        ⟨buildDemucsCommand (om.getD "htdemucs_ft") (outputDirPath env)
          env.device (inputFilePath env (ofn.getD "audio.mp3")),
          demucsTimeoutSeconds⟩] ∧
    demucsTimeoutSeconds = 300 := by
  refine ⟨?_, timeoutMsg_hasSub _, ?_, rfl⟩
  · simp [handler, decode_audio_file, hdec, hs, handlerCont,
      remove_vocals_serverless, htool]
  · simp [handler, decode_audio_file, hdec, hs, handlerCont,
      remove_vocals_serverless, htool]

/-- Witness for C6 at the concrete timed-out run. -/
theorem separate_timeout_witness :
    (handler jobGood envToolTimeout fsStart).1 =
      Response.failure (timeoutMsg (buildDemucsCommand "htdemucs_ft"
        (outputDirPath envToolTimeout) envToolTimeout.device
        (inputFilePath envToolTimeout "song.mp3")))
        envToolTimeout.elapsed envToolTimeout.isoNow ∧
    hasSub "timed out".data (timeoutMsg (buildDemucsCommand "htdemucs_ft"
      (outputDirPath envToolTimeout) envToolTimeout.device
      (inputFilePath envToolTimeout "song.mp3"))).data = true ∧
    (handler jobGood envToolTimeout fsStart).2.2 =
      [Event.decodeFile, Event.runTool
        ⟨buildDemucsCommand "htdemucs_ft" (outputDirPath envToolTimeout)
          envToolTimeout.device (inputFilePath envToolTimeout "song.mp3"),
          demucsTimeoutSeconds⟩] ∧
    demucsTimeoutSeconds = 300 :=
  separate_timeout envToolTimeout fsStart "AQID" [1, 2, 3]
    (some "song.mp3") none (by decide) rfl rfl

/-- C10: on every successful job, the response's `output_filename` is the
request filename's stem concatenated with `"_no_vocals.wav"`, independent
of the discovered artifact; and every recorded tool invocation carries the
`--mp3` output-format flag (so the actual artifact is an mp3). -/
theorem output_filename_from_request (job : Job) (env : Env) (fs : FS) :
    (∀ pa pt m g ofn ts, (handler job env fs).1 =
        Response.success pa pt m g ofn ts →
      ofn = splitextStem (jobFilename job) ++ "_no_vocals.wav") ∧
    (∀ inv, Event.runTool inv ∈ (handler job env fs).2.2 →
      "--mp3" ∈ inv.args) := by
  constructor
  · intro pa pt m g ofn ts h
    rcases handler_shape job env fs with ⟨_, heq⟩ | ⟨_, hf | hsuc⟩
    · rw [heq] at h
      simp at h
    · rcases hf with ⟨e, he, _⟩
      rw [he] at h
      simp at h
    · rcases hsuc with ⟨pa2, hp⟩
      rw [hp] at h
      simp only [Response.success.injEq] at h
      exact h.2.2.2.2.1.symm
  · intro inv hmem
    rcases handler_trace_shape job env fs with h0 | h1 | ⟨rest, ht, hno⟩
    · rw [h0] at hmem
      cases hmem
    · rw [h1] at hmem
      simp at hmem
    · rw [ht] at hmem
      simp only [List.mem_cons] at hmem
      rcases hmem with h | h | h
      · simp at h
      · simp only [Event.runTool.injEq] at h
        subst h
        simp [buildDemucsCommand]
      · have hcontra := hno _ h
        simp [isRunTool] at hcontra

/-- Witness for C10 at the concrete successful job: the output filename
comes from `"song.mp3"` even though the artifact is an mp3, and the
recorded invocation carries `--mp3`. -/
theorem output_filename_from_request_witness :
    ("song_no_vocals.wav" : String) =
      splitextStem (jobFilename jobGood) ++ "_no_vocals.wav" ∧
    "--mp3" ∈ (Invocation.mk (buildDemucsCommand "htdemucs_ft"
      (outputDirPath envSuccess) "cuda"
      (inputFilePath envSuccess "song.mp3")) demucsTimeoutSeconds).args :=
  ⟨(output_filename_from_request jobGood envSuccess fsStart).1
      "AQID" 1 "htdemucs_ft" "cuda" "song_no_vocals.wav" "T" (by decide),
    (output_filename_from_request jobGood envSuccess fsStart).2
      (Invocation.mk (buildDemucsCommand "htdemucs_ft"
        (outputDirPath envSuccess) "cuda"
        (inputFilePath envSuccess "song.mp3")) demucsTimeoutSeconds) (by decide)⟩
